import Mathlib

/-!
Verification development for the js-loader-transpiler repository.

Shallow embedding of the core of the program:
  src/services/configuration-service.js  (Configuration, Condition, Handler,
    UseEntry, Loader, SourceFile)
  src/main.js (third revision: applyTest, applyOutputFunction, processOneModule,
    main walk aggregation)
  src/services/error-utils.js (wrapError, shipped as unnamed part of the repo)

JavaScript values that flow through the modelled code are embedded as JsVal;
promises that settle are embedded as Except (a rejected promise is an error
value); a promise that can never settle is embedded as an explicit hang
outcome.  All definitions are executable.
-/

/-- Fragment of JavaScript values needed by the embedded code paths. -/
inductive JsVal where
  | undef
  | nullv
  | bool (b : Bool)
  | str (s : String)
  | num (n : Int)
  deriving DecidableEq, Repr

/-- String primitives recast on the character list so that every definition
reduces definitionally (the built-in byte-position based versions do not). -/
def strStartsWith (s pre : String) : Bool := pre.data.isPrefixOf s.data

def strDrop (s : String) (n : Nat) : String := .mk (s.data.drop n)

def strLength (s : String) : Nat := s.data.length

/-- JavaScript truthiness for the embedded value fragment. -/
def truthy : JsVal → Bool
  | .undef => false
  | .nullv => false
  | .bool b => b
  | .str s => !s.data.isEmpty
  | .num n => n != 0

/-- JavaScript String(v) coercion for the embedded value fragment. -/
def jsToString : JsVal → String
  | .undef => "undefined"
  | .nullv => "null"
  | .bool b => if b then "true" else "false"
  | .str s => s
  | .num n => toString n

/-- JavaScript errors: a TypeError raised by the runtime, an Error object
without a cause, or an Error object whose cause property holds the wrapped
original (only wrapError sets the cause property). -/
inductive JsErr where
  | typeError (msg : String)
  | error (msg : String)
  | wrapped (msg : String) (cause : JsErr)
  deriving DecidableEq, Repr

/-- The message property of an embedded error. -/
def errMessage : JsErr → String
  | .typeError m => m
  | .error m => m
  | .wrapped m _ => m

/-- The cause property of an embedded error (only wrapError sets it). -/
def errCause : JsErr → Option JsErr
  | .typeError _ => none
  | .error _ => none
  | .wrapped _ c => some c

/-- wrapError from error-utils.js: builds a new Error whose message is the
format applied to the original message and whose cause property is the
original error.  Every call site in the embedded code uses a format of the
shape "some prefix: {message}", so the embedding takes the already
interpolated prefix (including the trailing colon and space) and appends the
original message. -/
def wrapError (e : JsErr) (prefixMsg : String) : JsErr :=
  .wrapped (prefixMsg ++ errMessage e) e

/-- Membership in the cause chain of an error (the error itself included). -/
def inCauseChain (target : JsErr) : JsErr → Bool
  | .typeError m => target == .typeError m
  | .error m => target == .error m
  | .wrapped m c => target == .wrapped m c || inCauseChain target c

/-! ## Path helpers

Node path.resolve / path.join / path.relative are external library calls; the
embedding models them for the POSIX-style relative paths the program feeds
them: resolve(base, p) keeps an absolute p and otherwise joins under base;
join concatenates with a separator; relative strips the base prefix. -/

def jsPathResolve (base p : String) : String :=
  if strStartsWith p "/" then p else base ++ "/" ++ p

def jsPathJoin (base p : String) : String := base ++ "/" ++ p

def jsPathRelative (base p : String) : String :=
  if strStartsWith p (base ++ "/") then strDrop p (strLength base + 1) else p

/-! ## SourceFile and HandlerContext

SourceFile (configuration-service.js): the embedding keeps the path fields and
the resolved text content (getContentString); the lazy promise caching on the
instance is I/O plumbing outside the claims. -/

structure SourceFileM where
  sourceDir : String
  relativePath : String
  content : String
  deriving DecidableEq, Repr

def SourceFileM.absolutePath (s : SourceFileM) : String :=
  jsPathResolve s.sourceDir s.relativePath

/-- The per-source handler context built in Handler.getOutputGeneratorsForSource
(the mutable data bag is opaque to every claim and omitted). -/
structure HandlerContext where
  destDir : String
  source : SourceFileM
  resource : String
  resourcePath : String
  resourceQuery : String
  deriving DecidableEq, Repr

def mkHandlerContext (destDir : String) (src : SourceFileM) : HandlerContext :=
  { destDir := destDir
    source := src
    resource := src.absolutePath
    resourcePath := src.absolutePath
    resourceQuery := "" }

/-! ## Condition

Condition.satisfiedBy receives its arguments by spread; the test predicate is
called with the spread arguments, while every include and exclude member is
invoked with NO arguments (configuration-service.js line 186-187), so inside
those members the path and the context are both undefined.  A predicate hence
takes the path as a JsVal (undefined when absent) and the context as an
Option. -/

abbrev CPred := JsVal → Option HandlerContext → Except JsErr Bool

/-- The constructed Condition object: a test predicate and the include and
exclude predicate lists (include is a Lean keyword, hence the prime). -/
structure Condition where
  test : CPred
  include' : List CPred
  exclude : List CPred

/-- Evaluate a list of include or exclude members the way satisfiedBy does:
each member function is called with no arguments, that is with both the path
and the context undefined. -/
def evalSubsNoArgs (ps : List CPred) : Except JsErr (List Bool) :=
  ps.mapM (fun f => f .undef none)

/-- Condition.satisfiedBy: joins the test result, the include member results
and the exclude member results, then combines them as
test AND include.every(identity) AND NOT exclude.some(identity). -/
def satisfiedBy (c : Condition) (path : JsVal) (ctx : Option HandlerContext) :
    Except JsErr Bool := do
  let t ← c.test path ctx
  let incs ← evalSubsNoArgs c.include'
  let excs ← evalSubsNoArgs c.exclude
  pure (t && incs.all id && !(excs.any id))

/-- String.prototype.startsWith called on the path value: only a string
receiver has the method; any other receiver raises a TypeError. -/
def jsStartsWith (p : JsVal) (s : String) : Except JsErr Bool :=
  match p with
  | .str ps => .ok (strStartsWith ps s)
  | _ => .error (.typeError "Cannot read properties of undefined (reading startsWith)")

/-- Condition specifications, the polymorphic condition input.  A regular
expression is embedded as its test predicate on strings.  An object spec
carries the three known keys (absent-or-undefined as none), the strict flag
(spec default true) and the list of unrecognized own keys. -/
inductive CondSpec where
  | booleanLit (b : Bool)
  | stringLit (s : String)
  | funcLit (f : JsVal → Option HandlerContext → Except JsErr JsVal)
  | regexpLit (rtest : String → Bool)
  | arrayLit (cs : List CondSpec)
  | objectLit (test : Option CondSpec) (include' : Option CondSpec)
      (exclude : Option CondSpec) (strict : Bool) (unknownKeys : List String)
  | nullLit
  | undefinedLit
  | numberLit (n : Int)

mutual
/-- The Condition constructor.  Notes taken from the source:
  * a boolean, string, function or RegExp spec installs a test and keeps the
    default empty include and exclude lists;
  * a function spec evaluates the function with the spread arguments and then
    feeds the RESULT VALUE to bluebird Promise.method; Promise.method returns
    a function when given a function and throws a TypeError otherwise, and in
    the former case the subsequent .then call on the returned function raises
    a TypeError as well, so this test always fails with a TypeError after the
    function has run;
  * typeof null is the string object, and null is not a RegExp, Condition or
    Array, so a null spec reaches the destructuring of the object branch and
    raises a TypeError there;
  * a number or undefined spec matches no switch case and yields the default
    always-true Condition;
  * the object branch checks unknown keys under the strict flag, then casts
    each provided key, wrapping a non-array include or exclude into a
    one-element list. -/
def mkCondition : CondSpec → Except JsErr Condition
  | .booleanLit b =>
      .ok { test := fun _ _ => .ok b, include' := [], exclude := [] }
  | .stringLit s =>
      .ok { test := fun p _ => jsStartsWith p s, include' := [], exclude := [] }
  | .funcLit f =>
      .ok { test := fun p ctx =>
              match f p ctx with
              | .error e => .error e
              | .ok _ => .error (.typeError
                  "Promise.method(...).then is not a function")
            include' := [], exclude := [] }
  | .regexpLit rtest =>
      .ok { test := fun p _ => .ok (rtest (jsToString p)),
            include' := [], exclude := [] }
  | .arrayLit cs => do
      let conds ← mkConditionList cs
      .ok { test := fun _ _ => .ok true,
            include' := conds.map satisfiedBy, exclude := [] }
  | .objectLit tSpec iSpec eSpec strict unknownKeys => do
      if strict && !unknownKeys.isEmpty then
        .error (.error ("Unknown keys in strict condition: " ++
          String.intercalate ", " unknownKeys))
      else do
        let test ←
          match tSpec with
          | none => pure (fun (_ : JsVal) (_ : Option HandlerContext) =>
              (.ok true : Except JsErr Bool))
          | some t => do
              let c ← mkCondition t
              pure (satisfiedBy c)
        let include' ←
          match iSpec with
          | none => pure ([] : List CPred)
          | some (.arrayLit cs) => do
              let l ← mkConditionList cs
              pure (l.map satisfiedBy)
          | some other => do
              let c ← mkCondition other
              pure [satisfiedBy c]
        let exclude ←
          match eSpec with
          | none => pure ([] : List CPred)
          | some (.arrayLit cs) => do
              let l ← mkConditionList cs
              pure (l.map satisfiedBy)
          | some other => do
              let c ← mkCondition other
              pure [satisfiedBy c]
        .ok { test := test, include' := include', exclude := exclude }
  | .nullLit =>
      .error (.typeError "Cannot destructure property test of null as it is null")
  | .undefinedLit =>
      .ok { test := fun _ _ => .ok true, include' := [], exclude := [] }
  | .numberLit _ =>
      .ok { test := fun _ _ => .ok true, include' := [], exclude := [] }

def mkConditionList : List CondSpec → Except JsErr (List Condition)
  | [] => .ok []
  | c :: cs => do
      let hd ← mkCondition c
      let tl ← mkConditionList cs
      .ok (hd :: tl)
end

/-- Construct a Condition from a spec and evaluate it on a path and context
(construction errors propagate). -/
def evalSpec (s : CondSpec) (p : JsVal) (ctx : Option HandlerContext) :
    Except JsErr Bool := do
  let c ← mkCondition s
  satisfiedBy c p ctx

/-- The Condition a Handler builds for itself: Condition.cast of the lodash
pick of the test, include and exclude keys of the handler definition.  The
pick result is a plain object holding only known keys, so the strict flag is
the default true and there are no unknown keys. -/
def handlerConditionSpec (test include' exclude : Option CondSpec) : CondSpec :=
  .objectLit test include' exclude true []

/-! ## Loaders and UseEntries

A loader implementation is an opaque function: it is given the input content
string and the inputValue field of its loader context, may set the value
property on its context, and either returns a value or raises.  The embedding
collapses this to one outcome: either the returned value together with the
final context value property (undefined when the loader never set it), or the
raised error. -/

inductive LoaderRun where
  | ret (v : JsVal) (ctxValue : JsVal)
  | raise (e : JsErr)

abbrev LoaderFn := String → JsVal → LoaderRun

/-- A loader definition: a direct function, a module name string, or any
other value (rejected by the Loader constructor). -/
inductive LoaderDef where
  | func (f : LoaderFn)
  | name (s : String)
  | other (v : JsVal)

/-- The constructed Loader: its promiseForLoader field, stored at
construction time.  For a name definition the stored promise is the result of
importNamedModule with the resolution failure already wrapped by the catch in
the constructor; the constructor itself still succeeds in that case. -/
structure Loader where
  promiseForLoader : Except JsErr LoaderFn

/-- Loader.getLoader / the Loader constructor.  The run environment that
resolves a module name to a callable is passed in as resolveModule
(module resolution is an external collaborator).  The Nat component threads a
counter of importNamedModule invocations: the string case of the constructor
is the only place in the embedded code that performs a resolution. -/
def Loader.getLoader (resolveModule : String → Except JsErr LoaderFn) :
    LoaderDef → Nat → Except JsErr Loader × Nat
  | .func f, n => (.ok { promiseForLoader := .ok f }, n)
  | .name s, n =>
      (.ok { promiseForLoader :=
          match resolveModule s with
          | .ok f => .ok f
          | .error e => .error (wrapError e
              ("Error attempting to import loader " ++ s ++ ": ")) }, n + 1)
  | .other v, n =>
      (.error (.error ("Unexpected loader definition: " ++ jsToString v)), n)

/-- A use entry definition: the object form with loader, ident, strict flag
and unrecognized own keys (the options value is opaque and absorbed into the
loader function), or the shorthand form (a string or function used directly
as the loader definition). -/
inductive UseEntryDef where
  | objectForm (loader : LoaderDef) (ident : JsVal) (strict : Bool)
      (unknownKeys : List String)
  | shorthand (loaderDef : LoaderDef)

/-- The constructed UseEntry: its loader and ident fields (ident is null for
the shorthand form). -/
structure UseEntry where
  loader : Loader
  ident : JsVal

/-- The UseEntry constructor, threading the resolution counter of
Loader.getLoader. -/
def mkUseEntry (resolveModule : String → Except JsErr LoaderFn) :
    UseEntryDef → Nat → Except JsErr UseEntry × Nat
  | .objectForm ld ident strict unknownKeys, n =>
      if strict && !unknownKeys.isEmpty then
        (.error (.error ("Unknown keys in strict use entry: " ++
          String.intercalate ", " unknownKeys)), n)
      else
        match Loader.getLoader resolveModule ld n with
        | (.ok l, n') => (.ok { loader := l, ident := ident }, n')
        | (.error e, n') => (.error e, n')
  | .shorthand ld, n =>
      match Loader.getLoader resolveModule ld n with
      | (.ok l, n') => (.ok { loader := l, ident := .nullv }, n')
      | (.error e, n') => (.error e, n')

/-- A record flowing through a transform chain: the content string and the
optional sideband value (undefined when absent).  The initial input built by
getOutputGeneratorsForSource is the source content with an undefined value. -/
structure JsRec where
  content : String
  value : JsVal
  deriving DecidableEq, Repr

/-- Outcome of one step or of a whole chain: a settled record, a rejection,
or a promise that can never settle.  The hang case arises when a loader
returns undefined in UseEntry.transform: the internal callback is only
invoked on a defined synchronous return and no async helper is exposed to
the loader there, so the promise never settles. -/
inductive StepOutcome where
  | ok (r : JsRec)
  | err (e : JsErr)
  | hang
  deriving Repr

/-- UseEntry.transform: awaits the stored loader promise (wrapping a
rejection with the importing-for-ident message), then invokes the loader with
the input content; a raised error is wrapped with the applying-loader-ident
message; a defined return value v settles the promise with the record of
String(v) and the context value property; an undefined return leaves the
promise pending forever. -/
def UseEntry.transform (u : UseEntry) (input : JsRec) : StepOutcome :=
  match u.loader.promiseForLoader with
  | .error e =>
      .err (wrapError e
        ("Error importing loader module for " ++ jsToString u.ident ++ ": "))
  | .ok f =>
      match f input.content input.value with
      | .raise e =>
          .err (wrapError e
            ("Error applying loader " ++ jsToString u.ident ++ ": "))
      | .ret v ctxValue =>
          if v = .undef then .hang
          else .ok { content := jsToString v, value := ctxValue }

/-- Handler.transform unrolled: the bluebird reduce chains one then-callback
per use entry onto the promise of the running input.  A pending accumulator
stays pending and a rejected accumulator stays rejected (its remaining
then-callbacks never run); on a settled input the next entry runs and its
rejection is wrapped by the catch in Handler.transform.  The Nat component
counts how many use entries actually ran. -/
def transformAux : List UseEntry → StepOutcome → StepOutcome × Nat
  | [], acc => (acc, 0)
  | u :: rest, acc =>
      match acc with
      | .ok input =>
          let step :=
            match u.transform input with
            | .ok r => .ok r
            | .err e => .err (wrapError e "Failed trying to transform content: ")
            | .hang => .hang
          let (res, n) := transformAux rest step
          (res, n + 1)
      | other => (other, 0)

/-- Handler.transform: fold the use entries over the initial input. -/
def transformChain (entries : List UseEntry) (initialInput : JsRec) : StepOutcome :=
  (transformAux entries (.ok initialInput)).1

/-! ## Handler tree, generator collection, memoized materialization

A constructed Handler: its Condition, its getDestination function (the
constructor substitutes the identity on the default destination when the
definition provides none), its use entries, its forks and its destination
directory.  Handlers nest through their fork list, hence an inductive. -/

inductive HandlerM where
  | mk (condition : Condition)
      (getDestination : String → HandlerContext → Except JsErr JsVal)
      (useEntries : List UseEntry)
      (forks : List HandlerM)
      (destDir : String)

def HandlerM.condition : HandlerM → Condition
  | .mk c _ _ _ _ => c

def HandlerM.getDestination : HandlerM → (String → HandlerContext → Except JsErr JsVal)
  | .mk _ d _ _ _ => d

def HandlerM.useEntries : HandlerM → List UseEntry
  | .mk _ _ u _ _ => u

def HandlerM.forks : HandlerM → List HandlerM
  | .mk _ _ _ f _ => f

def HandlerM.destDir : HandlerM → String
  | .mk _ _ _ _ d => d

/-- Handler.getDefaultDestination: the destination directory of the context
joined with the relative path of the source. -/
def getDefaultDestination (ctx : HandlerContext) : String :=
  jsPathJoin ctx.destDir ctx.source.relativePath

/-- One collected output generator, as it is exposed to the caller before any
output is materialized: the destination path value the getDestination
function produced for this handler level (possibly falsy), the source, and -
as instrumentation - the position of the producing handler node in the tree
(the root is the empty position, fork i of a node at p is at p ++ [i]).  Its
deferred generateOutput work is the memoized transformation of that node,
modelled separately by forceTransformation. -/
structure GenDesc where
  nodePath : List Nat
  destinationPath : JsVal
  source : SourceFileM
  deriving DecidableEq, Repr

/-- Combine the per-fork collection results the way the two nested
Promise.all calls do: if any branch rejected, the whole call rejects;
otherwise the generator lists are flattened in order. -/
def combineForkResults : List (Except JsErr (List GenDesc)) → Except JsErr (List GenDesc)
  | [] => .ok []
  | .error e :: _ => .error e
  | .ok l :: rest =>
      match combineForkResults rest with
      | .ok ls => .ok (l ++ ls)
      | .error e => .error e

mutual
/-- Handler._getOutputGeneratorsForSource, instrumented with a trace of the
tree positions whose Condition was evaluated (in evaluation order).  The
node evaluates its Condition on the absolute source path and the context; on
false it contributes no generators and never touches its forks; on true it
computes its own destination (building the generator for this level
unconditionally, whatever the destination value is) and recurses into every
fork, all of which receive the parent context and - in the separate
materialization model - the parent memoized transformation as input. -/
def collectGens : HandlerM → SourceFileM → HandlerContext → List Nat →
    Except JsErr (List GenDesc) × List (List Nat)
  | .mk condition getDestination _ forks _, src, ctx, p =>
    match satisfiedBy condition (.str src.absolutePath) (some ctx) with
    | .error e => (.error e, [p])
    | .ok false => (.ok [], [p])
    | .ok true =>
        let forkOut := collectGensList forks src ctx p 0
        let trace := p :: forkOut.2
        match getDestination (getDefaultDestination ctx) ctx with
        | .error e => (.error e, trace)
        | .ok d =>
            match combineForkResults forkOut.1 with
            | .error e => (.error e, trace)
            | .ok forkGens =>
                (.ok ({ nodePath := p, destinationPath := d, source := src } :: forkGens),
                 trace)

/-- Collect over the fork list, numbering the children from the given index
and concatenating the traces in order. -/
def collectGensList (hs : List HandlerM) (src : SourceFileM) (ctx : HandlerContext)
    (p : List Nat) (i : Nat) : List (Except JsErr (List GenDesc)) × List (List Nat) :=
  match hs with
  | [] => ([], [])
  | f :: rest =>
      let r := collectGens f src ctx (p ++ [i])
      let rs := collectGensList rest src ctx p (i + 1)
      (r.1 :: rs.1, r.2 ++ rs.2)
end

/-- Handler.getOutputGeneratorsForSource, the public entry: builds the
per-source context and starts the collection at the root position. -/
def getOutputGeneratorsForSource (h : HandlerM) (src : SourceFileM) :
    Except JsErr (List GenDesc) × List (List Nat) :=
  collectGens h src (mkHandlerContext h.destDir src) []

/-- Look up the handler node at a tree position. -/
def nodeAt : HandlerM → List Nat → Option HandlerM
  | h, [] => some h
  | h, i :: rest =>
      match h.forks[i]? with
      | some f => nodeAt f rest
      | none => none

/-- Association lookup keyed by tree positions (the R.memoize cache is a
plain key-value store; an if-then-else form keeps every proof independent of
boolean-equality instances). -/
def assocLookup {β : Type} (q : List Nat) : List (List Nat × β) → Option β
  | [] => none
  | (k, v) :: rest => if q = k then some v else assocLookup q rest

/-- Memoization state for one getOutputGeneratorsForSource invocation: the
cached transformation outcome of each handler node (the R.memoize cache of
its getTransformation thunk, which caches the settled or rejected promise
alike), and the instrumentation log of thunk-body executions, one entry per
node position each time its transformation is actually computed. -/
structure MemoSt where
  cache : List (List Nat × StepOutcome)
  execs : List (List Nat)
  deriving Repr

def MemoSt.empty : MemoSt := { cache := [], execs := [] }

/-- Force the memoized transformation of a node, exactly as the
getTransformation closures chain: a cache hit returns the cached outcome
untouched; a miss obtains the input - the initial source record at the root,
otherwise the memoized transformation of the parent node - runs the node
transform chain on it (a rejected or pending input propagates without running
the chain, as the then-callback never fires), records the execution, and
caches the outcome.  The recursion walks from the node up to the root, so it
takes and keys the cache and the execution log by the REVERSED tree position
(last fork index first); the root key is the empty position either way. -/
def forceTransformationRev (root : HandlerM) (baseInput : JsRec) :
    List Nat → MemoSt → StepOutcome × MemoSt
  | [], st =>
    match assocLookup ([] : List Nat) st.cache with
    | some r => (r, st)
    | none =>
        let r : StepOutcome :=
          match nodeAt root [] with
          | none => .err (.error "no handler node at position")
          | some h => transformChain h.useEntries baseInput
        (r, { cache := (([] : List Nat), r) :: st.cache,
              execs := ([] : List Nat) :: st.execs })
  | a :: parentRev, st =>
    match assocLookup (a :: parentRev) st.cache with
    | some r => (r, st)
    | none =>
        let stepInput := forceTransformationRev root baseInput parentRev st
        let r : StepOutcome :=
          match nodeAt root (a :: parentRev).reverse with
          | none => .err (.error "no handler node at position")
          | some h =>
              match stepInput.1 with
              | .ok record => transformChain h.useEntries record
              | other => other
        (r, { cache := ((a :: parentRev), r) :: stepInput.2.cache,
              execs := (a :: parentRev) :: stepInput.2.execs })

/-- Force the memoized transformation of the node at tree position p. -/
def forceTransformation (root : HandlerM) (baseInput : JsRec) (p : List Nat)
    (st : MemoSt) : StepOutcome × MemoSt :=
  forceTransformationRev root baseInput p.reverse st

/-- Force a list of node transformations in order (the materialization phase
forcing the generateOutput of each collected generator). -/
def forceAll (root : HandlerM) (baseInput : JsRec) (ps : List (List Nat))
    (st : MemoSt) : MemoSt :=
  ps.foldl (fun s p => (forceTransformation root baseInput p s).2) st

/-! ## The main.js run driver (third revision)

applyTest, applyOutputFunction, processOneModule and the walker aggregation
in main.  Test and output specifications are the polymorphic values those two
functions switch on. -/

inductive TestSpec where
  | regexp (rtest : String → Bool)
  | func (f : String → JsVal)
  | boolean (b : Bool)
  | nullOrUndefined
  | otherVal (v : JsVal)

/-- applyTest: a RegExp is tested against the path, a function is invoked
with the path, a boolean is returned as is, null or undefined returns the
file path itself (truthy whenever the path is nonempty), anything else is
false. -/
def applyTest : TestSpec → String → JsVal
  | .regexp rtest, p => .bool (rtest p)
  | .func f, p => f p
  | .boolean b, _ => .bool b
  | .nullOrUndefined, p => .str p
  | .otherVal _, _ => .bool false

/-- The fileInfo record handed to an output function. -/
structure FileInfo where
  testResult : JsVal
  sourceDir : String
  destDir : String
  absoluteSourcePath : String
  deriving DecidableEq, Repr

inductive OutputSpec where
  | nullOrUndefined
  | func (f : String → FileInfo → JsVal)
  | strv (s : String)
  | otherVal (v : JsVal)

/-- applyOutputFunction: null or undefined yields the relative source path, a
function is invoked with the relative path and the file info, a string is
returned as is, anything else is false. -/
def applyOutputFunction : OutputSpec → String → FileInfo → JsVal
  | .nullOrUndefined, rel, _ => .str rel
  | .func f, rel, info => f rel info
  | .strv s, _, _ => .str s
  | .otherVal _, _, _ => .bool false

/-- A handler entry of the main.js configuration: its test, its output
specification and its loader name list. -/
structure MainHandler where
  test : TestSpec
  output : OutputSpec
  loaders : List String

/-- A handler selected for one input file: its resolved output path and its
loaders. -/
structure SelectedHandler where
  outputPath : String
  loaders : List String
  deriving DecidableEq, Repr

/-- The handler selection of processOneModule: a handler whose test result is
truthy and whose output path is truthy is kept with the output path resolved
under the destination directory; every other handler maps to null and is
filtered out.  Node path.resolve raises a TypeError when handed a truthy
non-string output value, hence the Except. -/
def selectedHandlers (handlers : List MainHandler) (sourceDir destDir : String)
    (absoluteSourcePath relativeSourcePath : String) :
    Except JsErr (List SelectedHandler) :=
  handlers.foldr
    (fun h acc => do
      let rest ← acc
      let testResult := applyTest h.test relativeSourcePath
      if truthy testResult then
        let outputPath := applyOutputFunction h.output relativeSourcePath
          { testResult := testResult, sourceDir := sourceDir, destDir := destDir,
            absoluteSourcePath := absoluteSourcePath }
        if truthy outputPath then
          match outputPath with
          | .str s =>
              .ok ({ outputPath := jsPathResolve destDir s, loaders := h.loaders } :: rest)
          | _ => .error (.typeError "path must be a string")
        else .ok rest
      else .ok rest)
    (.ok [])

/-- The collision reduce of processOneModule: walking the selected handlers,
an output path already seen raises the collision error for this input file;
the check covers only the handlers selected for this one file. -/
def checkCollisions (selected : List SelectedHandler) (relativeSourcePath : String)
    (seen : List String) : Except JsErr Unit :=
  match selected with
  | [] => .ok ()
  | h :: rest =>
      if h.outputPath ∈ seen then
        .error (.error
          ("Multiple handlers are targeting the same output for input file " ++
            relativeSourcePath))
      else checkCollisions rest relativeSourcePath (h.outputPath :: seen)

/-- A destination write performed by the run: source and destination paths. -/
structure WriteRec where
  source : String
  dest : String
  deriving DecidableEq, Repr

/-- processOneModule: select the handlers for this file, run the collision
reduce over them (the synchronous throw aborts the whole call before any
transpilation or write of this file starts), then transpile and write each
selected handler.  The transformation itself is outside this claim: a write
record is produced for each selected handler that the write phase reaches. -/
def processOneModule (handlers : List MainHandler) (sourceDir destDir : String)
    (directory fileName : String) : Except JsErr (List WriteRec) := do
  let absoluteSourcePath := jsPathResolve directory fileName
  let relativeSourcePath := jsPathRelative sourceDir absoluteSourcePath
  let selected ← selectedHandlers handlers sourceDir destDir
    absoluteSourcePath relativeSourcePath
  checkCollisions selected relativeSourcePath []
  .ok (selected.map (fun s => { source := absoluteSourcePath, dest := s.outputPath }))

/-- Outcome of a whole run: every write that was performed and every
aggregated per-file error.  The walker processes each discovered file; a file
whose processing rejects contributes a wrapped error to the aggregate list
while the writes of the other files go ahead regardless (the run promise
rejects at the end when the error list is nonempty, after the writes have
happened). -/
structure RunResult where
  written : List WriteRec
  errors : List JsErr
  deriving DecidableEq, Repr

/-- The main walk aggregation over the discovered files (each given by its
file name under the source directory). -/
def mainRun (handlers : List MainHandler) (sourceDir destDir : String)
    (files : List String) : RunResult :=
  files.foldl
    (fun acc fileName =>
      match processOneModule handlers sourceDir destDir sourceDir fileName with
      | .ok ws => { acc with written := acc.written ++ ws }
      | .error e =>
          { acc with errors := acc.errors ++
              [wrapError e ("Error occurred processing input file " ++
                jsPathResolve sourceDir fileName ++ ": ")] })
    { written := [], errors := [] }

/-! ## The per-run loader resolution pipeline (for the resolution claims)

Construct one use entry (counting importNamedModule invocations), then apply
its transform to every file record that reaches the step.  The transform
never performs a resolution: it only awaits the promise stored at
construction time. -/

def useEntryResolutionRun (resolveModule : String → Except JsErr LoaderFn)
    (d : UseEntryDef) (files : List JsRec) :
    Except JsErr (List StepOutcome) × Nat :=
  match mkUseEntry resolveModule d 0 with
  | (.ok u, n) => (.ok (files.map u.transform), n)
  | (.error e, n) => (.error e, n)

/-! ## Concrete fixtures used by witness and counterexample theorems -/

def demoSrc : SourceFileM :=
  { sourceDir := "/proj/src", relativePath := "a.yaml", content := "k: v" }

def demoCtx : HandlerContext := mkHandlerContext "/proj/out" demoSrc

/-- The default Condition (always-true test, empty include and exclude). -/
def trueCondition : Condition :=
  { test := fun _ _ => .ok true, include' := [], exclude := [] }

def falseCondition : Condition :=
  { test := fun _ _ => .ok false, include' := [], exclude := [] }

/-- A handler whose destination function returns the falsy value false, with
one fork that appends .js to its default destination. -/
def falsyHandler : HandlerM :=
  .mk trueCondition (fun _ _ => .ok (.bool false)) []
    [.mk trueCondition (fun d _ => .ok (.str (d ++ ".js"))) [] [] "/proj/out"]
    "/proj/out"

/-- A handler whose Condition is never satisfied, with one fork whose own
Condition would match everything. -/
def offHandler : HandlerM :=
  .mk falseCondition (fun d _ => .ok (.str d)) []
    [.mk trueCondition (fun d _ => .ok (.str d)) [] [] "/proj/out"]
    "/proj/out"

/-- A use entry whose loader appends an exclamation mark to the content. -/
def idEntry : UseEntry :=
  { loader := { promiseForLoader := .ok (fun c v => .ret (.str (c ++ "!")) v) },
    ident := .nullv }

/-- A use entry whose loader raises, carrying the ident label step2. -/
def badEntry : UseEntry :=
  { loader := { promiseForLoader := .ok (fun _ _ => .raise (.error "boom")) },
    ident := .str "step2" }

/-- A use entry realizing a pure total step function on records: the loader
returns the new content and sets the context value to the new value. -/
def pureStep (f : JsRec → JsRec) : UseEntry :=
  { loader := { promiseForLoader := .ok (fun c v =>
      .ret (.str (f { content := c, value := v }).content)
        (f { content := c, value := v }).value) },
    ident := .nullv }

/-- A handler with two forks, all three nodes with a matching Condition and a
one-step chain. -/
def twoForks : HandlerM :=
  .mk trueCondition (fun d _ => .ok (.str d)) [idEntry]
    [.mk trueCondition (fun d _ => .ok (.str d)) [idEntry] [] "/proj/out",
     .mk trueCondition (fun d _ => .ok (.str d)) [idEntry] [] "/proj/out"]
    "/proj/out"

/-- A main.js handler matching every file and writing to the constant output
path out. -/
def collideHandler : MainHandler :=
  { test := .boolean true, output := .strv "out", loaders := [] }

/-- A second main.js handler targeting the same constant output path. -/
def collideHandler2 : MainHandler :=
  { test := .boolean true, output := .strv "out", loaders := ["x"] }

/-! ## Shared helper lemmas -/

theorem inCauseChain_self (e : JsErr) : inCauseChain e e = true := by
  cases e <;> simp [inCauseChain]

/-- Running a chain from an already rejected accumulator performs nothing. -/
theorem transformAux_err (l : List UseEntry) (e : JsErr) :
    transformAux l (.err e) = (.err e, 0) := by
  cases l <;> simp [transformAux]

/-- Running a chain from a pending accumulator performs nothing. -/
theorem transformAux_hang (l : List UseEntry) :
    transformAux l .hang = (.hang, 0) := by
  cases l <;> simp [transformAux]

/-- Chaining then-callbacks is compositional: running the concatenation of
two entry lists equals running the first, then the second on its outcome,
with the executed-step counts adding up. -/
theorem transformAux_append (l1 l2 : List UseEntry) (acc : StepOutcome) :
    transformAux (l1 ++ l2) acc =
      ((transformAux l2 (transformAux l1 acc).1).1,
       (transformAux l1 acc).2 + (transformAux l2 (transformAux l1 acc).1).2) := by
  induction l1 generalizing acc with
  | nil => simp [transformAux]
  | cons u rest ih =>
      cases acc with
      | ok input =>
          simp only [List.cons_append, transformAux, List.append_eq]
          rw [ih]
          simp only [Prod.mk.injEq, true_and]
          omega
      | err e => simp [transformAux, transformAux_err]
      | hang => simp [transformAux, transformAux_hang]

/-- Every error coming out of UseEntry.transform is a wrapper whose message
carries the ident label of the entry and whose cause is the underlying
error. -/
theorem useEntry_err_shape (u : UseEntry) (y : JsRec) (e0 : JsErr)
    (h : u.transform y = .err e0) :
    ∃ orig a b, e0 = .wrapped (a ++ jsToString u.ident ++ b) orig := by
  unfold UseEntry.transform at h
  cases hl : u.loader.promiseForLoader with
  | error e =>
      rw [hl] at h
      simp [wrapError] at h
      refine ⟨e, "Error importing loader module for ", ": " ++ errMessage e, ?_⟩
      simp [← h, String.append_assoc]
  | ok f =>
      rw [hl] at h
      simp only at h
      cases hr : f y.content y.value with
      | raise e =>
          rw [hr] at h
          simp [wrapError] at h
          refine ⟨e, "Error applying loader ", ": " ++ errMessage e, ?_⟩
          simp [← h, String.append_assoc]
      | ret v cv =>
          rw [hr] at h
          by_cases hv : v = .undef <;> simp [hv] at h

/-! ## Claim theorems -/

/-- C3 (code behavior at the claimed semantics, refuting the claim): leaf
Condition specifications are NOT evaluated per their shape in every position.
First conjunct: a string leaf placed in an include list is invoked with no
arguments, so it calls startsWith on an undefined path and the evaluation
fails with a TypeError instead of computing p.startsWith(literal) - here the
include member /src would match the path /src/a.js, yet evaluation errors.
Second conjunct: a function leaf used as the top-level test is invoked with
(path, context), but its result is then handed to bluebird Promise.method,
whose return value (a function) has no then method, so the evaluation always
fails with a TypeError instead of coercing the result to boolean. -/
theorem condition_leaf_positions_misbehave :
    evalSpec (.objectLit none (some (.arrayLit [.stringLit "/src"])) none true [])
        (.str "/src/a.js") (some demoCtx)
      = .error (.typeError "Cannot read properties of undefined (reading startsWith)")
    ∧ evalSpec (.funcLit (fun _ _ => .ok (.bool true))) (.str "/src/a.js") (some demoCtx)
      = .error (.typeError "Promise.method(...).then is not a function") := by
  constructor <;> rfl

/-- C4: satisfaction of a Condition is exactly test AND all(include) AND NOT
any(exclude) - the combined evaluation yields true precisely when the test
part yields true, the conjunction over the include members yields true and
the disjunction over the exclude members yields false - and the two empty
lists are vacuous: an empty include list contributes true, an empty exclude
list contributes false. -/
theorem condition_is_conjunction_with_vacuous_edges (c : Condition) (p : JsVal)
    (ctx : Option HandlerContext) :
    (∀ (t : Bool) (incs excs : List Bool),
      c.test p ctx = .ok t → evalSubsNoArgs c.include' = .ok incs →
      evalSubsNoArgs c.exclude = .ok excs →
      satisfiedBy c p ctx = .ok (t && incs.all id && !(excs.any id)))
    ∧ (c.include' = [] → evalSubsNoArgs c.include' = .ok [] ∧ [].all id = true)
    ∧ (c.exclude = [] → evalSubsNoArgs c.exclude = .ok [] ∧ [].any id = false) := by
  refine ⟨?_, ?_, ?_⟩
  · intro t incs excs ht hi he
    unfold satisfiedBy
    simp [ht, hi, he, bind, Except.bind, pure, Except.pure]
  · intro h
    rw [h]
    exact ⟨rfl, rfl⟩
  · intro h
    rw [h]
    exact ⟨rfl, rfl⟩

theorem condition_is_conjunction_with_vacuous_edges_witness :
    satisfiedBy trueCondition (.str "/proj/src/a.yaml") (some demoCtx) = .ok true
    ∧ (evalSubsNoArgs trueCondition.include' = .ok [] ∧ [].all id = true)
    ∧ (evalSubsNoArgs trueCondition.exclude = .ok [] ∧ [].any id = false) :=
  ⟨(condition_is_conjunction_with_vacuous_edges trueCondition (.str "/proj/src/a.yaml")
      (some demoCtx)).1 true [] [] rfl rfl rfl,
   (condition_is_conjunction_with_vacuous_edges trueCondition (.str "/proj/src/a.yaml")
      (some demoCtx)).2.1 rfl,
   (condition_is_conjunction_with_vacuous_edges trueCondition (.str "/proj/src/a.yaml")
      (some demoCtx)).2.2 rfl⟩

/-- C10 counterexample: a null Condition specification does NOT construct an
always-true Condition - typeof null is the string object, null is not a
RegExp, Condition or Array, and the destructuring in the object branch of the
constructor raises a TypeError, so construction errs. -/
theorem null_condition_spec_raises :
    mkCondition .nullLit =
      .error (.typeError "Cannot destructure property test of null as it is null") := rfl

/-- C10 amended: a Condition specification of unrecognized runtime type whose
typeof is not the string object - a number, undefined - raises no error and
matches every path (constant-true test, empty include and exclude), and the
Condition a Handler builds when its definition provides none of test, include
and exclude likewise matches every path; but a null specification (typeof
object) raises a TypeError during construction. -/
theorem unrecognized_condition_specs_match_everything (n : Int) (p : JsVal)
    (ctx : Option HandlerContext) :
    evalSpec (.numberLit n) p ctx = .ok true
    ∧ evalSpec .undefinedLit p ctx = .ok true
    ∧ evalSpec (handlerConditionSpec none none none) p ctx = .ok true
    ∧ ∃ m, mkCondition .nullLit = .error (.typeError m) := by
  exact ⟨rfl, rfl, rfl, _, rfl⟩

/-- C5: when the Condition of a handler is not satisfied by a source, the
collection returns the empty generator list and no fork is ever evaluated:
the trace of Condition evaluations contains only the position of the handler
itself, so no fork Condition is tested - and, there being no generators, no
fork chain is ever forced either. -/
theorem unsatisfied_condition_skips_forks (h : HandlerM) (src : SourceFileM)
    (ctx : HandlerContext) (p : List Nat)
    (hns : satisfiedBy h.condition (.str src.absolutePath) (some ctx) = .ok false) :
    collectGens h src ctx p = (.ok [], [p]) := by
  cases h with
  | mk condition getDestination useEntries forks destDir =>
      simp only [HandlerM.condition] at hns
      simp [collectGens, hns]

theorem unsatisfied_condition_skips_forks_witness :
    collectGens offHandler demoSrc demoCtx [] = (.ok [], [[]]) :=
  unsatisfied_condition_skips_forks offHandler demoSrc demoCtx [] rfl

/-- C2 (code behavior, refuting the claim): a Handler whose Condition is
satisfied and whose destination function returns the falsy value false still
produces an output generator for its own level - the destination value is
never tested for falsiness in _getOutputGenerator - so a file write is
attempted at that level; the fork is still evaluated and produces its own
generator (the part of the claim that does hold). -/
theorem falsy_destination_still_produces_generator :
    getOutputGeneratorsForSource falsyHandler demoSrc =
      (.ok [{ nodePath := [], destinationPath := .bool false, source := demoSrc },
            { nodePath := [0], destinationPath := .str "/proj/out/a.yaml.js",
              source := demoSrc }],
       [[], [0]]) := rfl

/-- C7 helper: the use entry realizing a pure step transforms a record into
exactly the step image. -/
theorem pureStep_transform (f : JsRec → JsRec) (r : JsRec) :
    (pureStep f).transform r = .ok (f r) := rfl

/-- C7: a chain of succeeding steps applies them strictly left to right -
the final output is the left-to-right composition of the step functions on
the initial record, each step receiving the record the previous one produced
- and the empty chain returns its input unchanged. -/
theorem chain_composes_left_to_right (fs : List (JsRec → JsRec)) (x : JsRec) :
    transformChain (fs.map pureStep) x = .ok (fs.foldl (fun r f => f r) x)
    ∧ transformChain ([] : List UseEntry) x = .ok x := by
  constructor
  · induction fs generalizing x with
    | nil => rfl
    | cons f rest ih =>
        simp only [List.map_cons, transformChain, transformAux, pureStep_transform,
          List.foldl_cons]
        exact ih (f x)
  · rfl

/-- A successful collision reduce means the selected output paths of this one
file are pairwise distinct and avoid everything already seen. -/
theorem checkCollisions_ok_sound (sel : List SelectedHandler) (rel : String)
    (seen : List String) (h : checkCollisions sel rel seen = .ok ()) :
    (sel.map (fun s => s.outputPath)).Nodup ∧
      ∀ x ∈ seen, x ∉ sel.map (fun s => s.outputPath) := by
  induction sel generalizing seen with
  | nil => simp
  | cons a rest ih =>
      unfold checkCollisions at h
      by_cases hm : a.outputPath ∈ seen
      · simp [hm] at h
      · simp only [if_neg hm] at h
        obtain ⟨hn, hseen⟩ := ih (a.outputPath :: seen) h
        refine ⟨?_, ?_⟩
        · simp only [List.map_cons, List.nodup_cons]
          exact ⟨hseen a.outputPath (by simp), hn⟩
        · intro x hx
          simp only [List.map_cons, List.mem_cons, not_or]
          refine ⟨fun hxa => hm (hxa ▸ hx), hseen x (by simp [hx])⟩

/-- C1 counterexample: two different source files whose selected handlers
target the same destination path.  The full generator set of the run holds
two generators with the same destination (one per file), yet the run raises
no collision error and both destination files are written - the collision
reduce in processOneModule only inspects the handlers selected for one input
file at a time, so cross-file collisions pass undetected and writes are not
withheld. -/
theorem cross_file_collision_unchecked :
    mainRun [collideHandler] "/s" "/d" ["a", "b"] =
      { written := [{ source := "/s/a", dest := "/d/out" },
                    { source := "/s/b", dest := "/d/out" }],
        errors := [] } := rfl

/-- C1 amended: the collision check is per input file.  Whenever the
handlers selected for one source file contain two with the same resolved
output path, processing of that file fails with a collision error before any
of that file's outputs is written; collisions between generators of
different source files are not detected, and the writes of other files
proceed (see the counterexample). -/
theorem collision_detected_per_file (handlers : List MainHandler)
    (sourceDir destDir directory fileName : String) (sel : List SelectedHandler)
    (hsel : selectedHandlers handlers sourceDir destDir
        (jsPathResolve directory fileName)
        (jsPathRelative sourceDir (jsPathResolve directory fileName)) = .ok sel)
    (hdup : ¬ (sel.map (fun s => s.outputPath)).Nodup) :
    ∃ e, processOneModule handlers sourceDir destDir directory fileName = .error e := by
  cases hc : checkCollisions sel
      (jsPathRelative sourceDir (jsPathResolve directory fileName)) [] with
  | ok u =>
      cases u
      exact absurd (checkCollisions_ok_sound sel _ [] hc).1 hdup
  | error e =>
      refine ⟨e, ?_⟩
      unfold processOneModule
      simp [hsel, hc, bind, Except.bind]

theorem collision_detected_per_file_witness :
    ∃ e, processOneModule [collideHandler, collideHandler2] "/s" "/d" "/s" "a" = .error e :=
  collision_detected_per_file [collideHandler, collideHandler2] "/s" "/d" "/s" "a"
    [{ outputPath := "/d/out", loaders := [] }, { outputPath := "/d/out", loaders := ["x"] }]
    rfl (by decide)

/-- C8: a chain whose prefix succeeds and whose next step fails aborts right
there: the steps after the failing one never run (exactly prefix-length plus
one steps execute), the chain rejects with the transform-content wrapper
around the failing step error, that wrapper preserves the original loader
error in its cause chain, and the failing step error carries the ident label
of the failing step in its message. -/
theorem failing_step_aborts_chain (pre post : List UseEntry) (u : UseEntry)
    (x y : JsRec) (e0 : JsErr)
    (hpre : transformAux pre (.ok x) = (.ok y, pre.length))
    (hfail : u.transform y = .err e0) :
    transformAux (pre ++ u :: post) (.ok x) =
      (.err (wrapError e0 "Failed trying to transform content: "), pre.length + 1)
    ∧ (∃ orig, errCause e0 = some orig ∧
        inCauseChain orig (wrapError e0 "Failed trying to transform content: ") = true)
    ∧ (∃ a b, errMessage e0 = a ++ jsToString u.ident ++ b) := by
  obtain ⟨orig, a, b, hshape⟩ := useEntry_err_shape u y e0 hfail
  refine ⟨?_, ⟨orig, ?_, ?_⟩, ⟨a, b, ?_⟩⟩
  · rw [transformAux_append, hpre]
    simp [transformAux, hfail, transformAux_err]
  · rw [hshape]
    rfl
  · rw [hshape]
    simp [inCauseChain, wrapError, inCauseChain_self]
  · rw [hshape]
    rfl

theorem failing_step_aborts_chain_witness :
    transformAux ([idEntry] ++ badEntry :: [idEntry])
        (.ok { content := "x", value := .undef }) =
      (.err (wrapError (wrapError (.error "boom") "Error applying loader step2: ")
        "Failed trying to transform content: "), 2)
    ∧ (∃ orig, errCause (wrapError (.error "boom") "Error applying loader step2: ")
          = some orig ∧
        inCauseChain orig (wrapError
          (wrapError (.error "boom") "Error applying loader step2: ")
          "Failed trying to transform content: ") = true)
    ∧ (∃ a b, errMessage (wrapError (.error "boom") "Error applying loader step2: ")
        = a ++ jsToString badEntry.ident ++ b) :=
  failing_step_aborts_chain [idEntry] [idEntry] badEntry
    { content := "x", value := .undef } { content := "x!", value := .undef }
    (wrapError (.error "boom") "Error applying loader step2: ") rfl rfl

/-- A resolving environment whose every resolution fails (for the resolution
witness). -/
def failResolve : String → Except JsErr LoaderFn := fun _ => .error (.error "not found")

/-- C9: over one run of a use entry - construction followed by processing any
number of files - the loader reference is resolved at most once, the
resolution count does not depend on the processed files at all (resolution is
never retried per file, it happens only inside the constructor), and when the
reference is a module name whose resolution fails, every file that reaches
the step fails with that same cached resolution failure, wrapped by the
import-catch of the constructor and the importing-for-ident catch of the
transform. -/
theorem loader_resolution_once_per_run (resolveModule : String → Except JsErr LoaderFn)
    (d : UseEntryDef) (files : List JsRec) :
    (useEntryResolutionRun resolveModule d files).2 ≤ 1
    ∧ (useEntryResolutionRun resolveModule d files).2 =
        (useEntryResolutionRun resolveModule d []).2
    ∧ (∀ name e, d = .shorthand (.name name) → resolveModule name = .error e →
        useEntryResolutionRun resolveModule d files =
          (.ok (files.map (fun _ => .err (wrapError
              (wrapError e ("Error attempting to import loader " ++ name ++ ": "))
              "Error importing loader module for null: "))), 1)) := by
  refine ⟨?_, ?_, ?_⟩
  · cases d with
    | objectForm ld ident strict keys =>
        unfold useEntryResolutionRun mkUseEntry
        by_cases hs : (strict && !keys.isEmpty) = true
        · simp [hs]
        · simp only [hs, if_neg, Bool.not_eq_true] at *
          cases ld <;> simp [hs, Loader.getLoader]
    | shorthand ld =>
        cases ld <;> simp [useEntryResolutionRun, mkUseEntry, Loader.getLoader]
  · unfold useEntryResolutionRun
    cases h : mkUseEntry resolveModule d 0 with
    | mk fst snd => cases fst <;> simp
  · intro name e hd hres
    subst hd
    simp only [useEntryResolutionRun, mkUseEntry, Loader.getLoader, hres]
    rfl

theorem loader_resolution_once_per_run_witness :
    useEntryResolutionRun failResolve (.shorthand (.name "yaml-loader"))
        [{ content := "a", value := .undef }, { content := "b", value := .undef }] =
      (.ok [.err (wrapError
              (wrapError (.error "not found")
                "Error attempting to import loader yaml-loader: ")
              "Error importing loader module for null: "),
            .err (wrapError
              (wrapError (.error "not found")
                "Error attempting to import loader yaml-loader: ")
              "Error importing loader module for null: ")], 1) :=
  (loader_resolution_once_per_run failResolve (.shorthand (.name "yaml-loader"))
    [{ content := "a", value := .undef }, { content := "b", value := .undef }]).2.2
    "yaml-loader" (.error "not found") rfl rfl

/-! ## Memoization lemmas for the fork claims -/

/-- Forcing never drops or changes an existing cache entry. -/
theorem forceRev_cache_mono (root : HandlerM) (base : JsRec) (rp : List Nat)
    (st : MemoSt) (q : List Nat) (r : StepOutcome)
    (h : assocLookup q st.cache = some r) :
    assocLookup q ((forceTransformationRev root base rp st).2).cache = some r := by
  induction rp generalizing st with
  | nil =>
      unfold forceTransformationRev
      cases hl : assocLookup ([] : List Nat) st.cache with
      | some r' => simpa using h
      | none =>
          have hq : q ≠ ([] : List Nat) := by
            intro hq
            rw [hq, hl] at h
            cases h
          simp [assocLookup, hq, h]
  | cons a parentRev ih =>
      unfold forceTransformationRev
      cases hl : assocLookup (a :: parentRev) st.cache with
      | some r' => simpa using h
      | none =>
          have hq : q ≠ a :: parentRev := by
            intro hq
            rw [hq, hl] at h
            cases h
          simp [assocLookup, hq, ih st h]

/-- Forcing a node adds cache keys only for positions no deeper than the
forced one. -/
theorem forceRev_new_keys (root : HandlerM) (base : JsRec) (rp : List Nat)
    (st : MemoSt) (q : List Nat)
    (hnone : assocLookup q st.cache = none)
    (hsome : assocLookup q ((forceTransformationRev root base rp st).2).cache ≠ none) :
    q.length ≤ rp.length := by
  induction rp generalizing st with
  | nil =>
      unfold forceTransformationRev at hsome
      cases hl : assocLookup ([] : List Nat) st.cache with
      | some r' =>
          rw [hl] at hsome
          exact absurd hnone hsome
      | none =>
          rw [hl] at hsome
          by_cases hq : q = ([] : List Nat)
          · simp [hq]
          · simp [assocLookup, hq, hnone] at hsome
  | cons a parentRev ih =>
      unfold forceTransformationRev at hsome
      cases hl : assocLookup (a :: parentRev) st.cache with
      | some r' =>
          rw [hl] at hsome
          exact absurd hnone hsome
      | none =>
          rw [hl] at hsome
          by_cases hq : q = a :: parentRev
          · subst hq
            simp
          · simp only [assocLookup, if_neg hq] at hsome
            have hle := ih st hnone hsome
            simp only [List.length_cons]
            omega

/-- Forcing a node leaves its own outcome in the cache. -/
theorem forceRev_populates (root : HandlerM) (base : JsRec) (rp : List Nat)
    (st : MemoSt) :
    assocLookup rp ((forceTransformationRev root base rp st).2).cache =
      some ((forceTransformationRev root base rp st).1) := by
  cases rp with
  | nil =>
      unfold forceTransformationRev
      cases hl : assocLookup ([] : List Nat) st.cache with
      | some r' => simpa using hl
      | none => simp [assocLookup]
  | cons a parentRev =>
      unfold forceTransformationRev
      cases hl : assocLookup (a :: parentRev) st.cache with
      | some r' => simpa using hl
      | none => simp [assocLookup]

/-- The execution-count invariant: a node position has been executed exactly
once when its transformation is cached and never otherwise. -/
def MemoInv (st : MemoSt) : Prop :=
  ∀ q : List Nat, st.execs.count q = if (assocLookup q st.cache).isSome then 1 else 0

theorem memoInv_empty : MemoInv MemoSt.empty := by
  intro q
  simp [MemoSt.empty, assocLookup]

/-- Adding one fresh key to the cache together with one execution log entry
preserves the invariant. -/
theorem memoInv_step (st : MemoSt) (k : List Nat) (r : StepOutcome)
    (hinv : MemoInv st) (hnone : assocLookup k st.cache = none) :
    MemoInv { cache := (k, r) :: st.cache, execs := k :: st.execs } := by
  intro q
  by_cases hq : q = k
  · subst hq
    simp [List.count_cons, assocLookup, hinv q, hnone]
  · simp [List.count_cons, assocLookup, hq, Ne.symm hq, hinv q]

/-- Forcing preserves the execution-count invariant. -/
theorem forceRev_inv (root : HandlerM) (base : JsRec) (rp : List Nat)
    (st : MemoSt) (hinv : MemoInv st) :
    MemoInv ((forceTransformationRev root base rp st).2) := by
  induction rp generalizing st with
  | nil =>
      unfold forceTransformationRev
      cases hl : assocLookup ([] : List Nat) st.cache with
      | some r' => simpa using hinv
      | none => exact memoInv_step st [] _ hinv hl
  | cons a parentRev ih =>
      unfold forceTransformationRev
      cases hl : assocLookup (a :: parentRev) st.cache with
      | some r' => simpa using hinv
      | none =>
          have hinv' := ih st hinv
          have hnone' : assocLookup (a :: parentRev)
              ((forceTransformationRev root base parentRev st).2).cache = none := by
            cases hcon : assocLookup (a :: parentRev)
                ((forceTransformationRev root base parentRev st).2).cache with
            | none => rfl
            | some r'' =>
                exfalso
                have hlen := forceRev_new_keys root base parentRev st (a :: parentRev) hl
                  (by rw [hcon]; exact Option.some_ne_none r'')
                simp only [List.length_cons] at hlen
                omega
          exact memoInv_step _ _ _ hinv' hnone'

/-- From an empty memoization state, forcing any node caches the root
transformation along the way. -/
theorem forceRev_root_cached (root : HandlerM) (base : JsRec) (rp : List Nat) :
    ∃ r, assocLookup ([] : List Nat)
      ((forceTransformationRev root base rp MemoSt.empty).2).cache = some r := by
  induction rp with
  | nil =>
      unfold forceTransformationRev
      simp [MemoSt.empty, assocLookup]
  | cons a parentRev ih =>
      unfold forceTransformationRev
      have hl : assocLookup (a :: parentRev) (MemoSt.empty).cache = none := rfl
      rw [hl]
      obtain ⟨r, hr⟩ := ih
      have hne : ([] : List Nat) ≠ a :: parentRev := by simp
      refine ⟨r, ?_⟩
      simp [assocLookup, hne, hr]

/-- Monotonicity of the whole materialization pass over the cache. -/
theorem forceAll_cache_mono (root : HandlerM) (base : JsRec) (ps : List (List Nat))
    (st : MemoSt) (q : List Nat) (r : StepOutcome)
    (h : assocLookup q st.cache = some r) :
    assocLookup q (forceAll root base ps st).cache = some r := by
  induction ps generalizing st with
  | nil => simpa [forceAll] using h
  | cons p rest ih =>
      simp only [forceAll, List.foldl_cons]
      exact ih _ (forceRev_cache_mono root base p.reverse st q r h)

/-- The materialization pass preserves the execution-count invariant. -/
theorem forceAll_inv (root : HandlerM) (base : JsRec) (ps : List (List Nat))
    (st : MemoSt) (hinv : MemoInv st) :
    MemoInv (forceAll root base ps st) := by
  induction ps generalizing st with
  | nil => simpa [forceAll] using hinv
  | cons p rest ih =>
      simp only [forceAll, List.foldl_cons]
      exact ih _ (forceRev_inv root base p.reverse st hinv)

/-- C6: over one getOutputGeneratorsForSource invocation, materializing any
set of generators - the parent generator of the handler and those of any
number of forks, each of which receives the parent memoized transformation as
its input - executes every node transform chain at most once, and executes
the parent (root) chain exactly once as soon as at least one generator is
forced: N forks forcing their input cause one parent transform execution, not
N.  Execution counts are read off the instrumentation log of forceAll, keyed
by reversed tree positions; the root key is the empty position. -/
theorem parent_chain_executes_once (root : HandlerM) (baseInput : JsRec)
    (ps : List (List Nat)) :
    (∀ q, (forceAll root baseInput ps MemoSt.empty).execs.count q ≤ 1)
    ∧ (ps ≠ [] →
        (forceAll root baseInput ps MemoSt.empty).execs.count ([] : List Nat) = 1) := by
  have hinv : MemoInv (forceAll root baseInput ps MemoSt.empty) :=
    forceAll_inv root baseInput ps MemoSt.empty memoInv_empty
  constructor
  · intro q
    rw [hinv q]
    split <;> omega
  · intro hne
    cases ps with
    | nil => exact absurd rfl hne
    | cons p rest =>
        obtain ⟨r, hr⟩ := forceRev_root_cached root baseInput p.reverse
        have hmono : assocLookup ([] : List Nat)
            (forceAll root baseInput rest
              (forceTransformationRev root baseInput p.reverse MemoSt.empty).2).cache
            = some r := forceAll_cache_mono root baseInput rest _ _ r hr
        have h2 := hinv ([] : List Nat)
        rw [show forceAll root baseInput (p :: rest) MemoSt.empty =
              forceAll root baseInput rest
                (forceTransformationRev root baseInput p.reverse MemoSt.empty).2
            from rfl] at h2
        rw [show forceAll root baseInput (p :: rest) MemoSt.empty =
              forceAll root baseInput rest
                (forceTransformationRev root baseInput p.reverse MemoSt.empty).2
            from rfl]
        rw [h2, hmono]
        rfl

theorem parent_chain_executes_once_witness :
    (forceAll twoForks { content := "c", value := .undef } [[], [0], [1]]
      MemoSt.empty).execs.count ([] : List Nat) = 1 :=
  (parent_chain_executes_once twoForks { content := "c", value := .undef }
    [[], [0], [1]]).2 (by simp)
